import Mathlib

/-!
# Firmware version dashboard — verification of the view pipeline

Shallow embedding of `src/firmware_version_dashboard.jsx`.

The program is a single UI component. The logic embedded here:

* the record data model (`FirmwareRecord`, schema from the file header comment);
* the fetch-completion state transition of the `useEffect` at lines 75–90
  (`DashState`, `applyFetchCompletion`);
* the derived view `filtered` at lines 92–112: a beta-channel filter, a
  free-text filter, and a comparator sort;
* the derived `lastUpdated` value at lines 114–117;
* the release-date cell rendering at line 191
  (`new Date(r.released_at).toISOString().replace(".000Z", "Z")`).

Modelling conventions:

* `released_at` is stored in the source as an ISO-8601 string and is only
  ever consumed through `new Date(...)`; we model the field as the parsed
  UTC timestamp in milliseconds since the epoch (an `Int`, negative before
  1970), which preserves every use site.  The fallback literal
  `"1970-01-01T00:00:00Z"` parses to `0`.
* `hardware_rev` is optional in the schema; every consumer coerces a missing
  value with `r.hardware_rev || ""`, so it is modelled as a `String` with
  `""` standing for "absent".
* JavaScript `toLowerCase`, `trim` and `includes` are modelled on `List Char`
  (`lowerChars`, `trimChars`, `hasSubstr`).
* `localeCompare` (used by the sort comparators) is host-locale dependent; it
  is modelled by code-point comparison, and the `{numeric, sensitivity:
  "base"}` variant used for versions by a digit-run-aware, case-insensitive
  comparison (`localeCompareNumericBase`).  The sortedness/permutation
  theorems below hold for any total comparator, so they are insensitive to
  this approximation.
* `Array.prototype.sort` (stable, comparator-driven) is modelled by
  `List.insertionSort`, a stable comparator sort.
* Date formatting (`toISOString`) is modelled for timestamps at or after the
  epoch (`civilFromDays`, Gregorian civil-from-days); expanded-year
  formatting for negative/huge timestamps is outside the modelled range.
-/

/-- One published firmware build (schema from the source header comment). -/
structure FirmwareRecord where
  product_code : String
  product_name : String
  /-- Optional in the schema; `""` models an absent value (the source reads
  it as `r.hardware_rev || ""`). -/
  hardware_rev : String
  /-- `"approved"` or `"beta"` per the schema; the source never validates. -/
  channel : String
  version : String
  /-- The parsed UTC timestamp of the ISO-8601 `released_at` string, in
  milliseconds since the epoch (the value of `new Date(s).getTime()`). -/
  released_at : Int
  notes : String
deriving DecidableEq, Repr

/-- `DATA_MODE` at line 24 of the source. -/
def DATA_MODE : String := "inline"

/-- `DATA_URL` at line 25 of the source. -/
def DATA_URL : String := "/versions.json"

/-- The inline sample data at lines 28–65, with each `released_at` string
replaced by its parsed millisecond timestamp. -/
def INLINE_DATA : List FirmwareRecord :=
  [ { product_code := "PW-SEN-AL7700", product_name := "Pacwave PIR Ceiling Sensor",
      hardware_rev := "A2", channel := "approved", version := "1.4.2",
      released_at := 1755681300000, notes := "Improved UART framing; fix delayed IRS." },
    { product_code := "PW-SEN-AL7700", product_name := "Pacwave PIR Ceiling Sensor",
      hardware_rev := "A2", channel := "beta", version := "1.5.0-beta.2",
      released_at := 1755741660000, notes := "Adds anti-rollback check." },
    { product_code := "BL652-GW", product_name := "Silvair BLE Mesh Gateway",
      hardware_rev := "B1", channel := "approved", version := "3.2.0",
      released_at := 1755280800000, notes := "Gateway stability fixes for 100+ nodes." },
    { product_code := "AL1039-I-CB", product_name := "DALI Controller (Casambi)",
      hardware_rev := "C0", channel := "approved", version := "2.7.1",
      released_at := 1754788200000, notes := "DT8 RGBW mapping safeguard." } ]

/-! ## Data acquisition (the fetch effect, lines 75–90) -/

/-- The three state slots the fetch effect touches (`records`, `loading`,
`error` at lines 68–70). -/
structure DashState where
  records : List FirmwareRecord
  loading : Bool
  error : Option String
deriving DecidableEq, Repr

/-- The ways the fetch chain can fail: a non-ok HTTP response (line 80 throws
`new Error("HTTP " + r.status)`), a transport/network rejection, or a JSON
parse rejection.  For the latter two the environment supplies the already
stringified reason (`String(e)`). -/
inductive FetchFailure where
  | httpStatus (code : Nat)
  | network (msg : String)
  | parse (msg : String)
deriving DecidableEq, Repr

/-- Completion of the fetch promise chain: either a parsed JSON payload or a
failure. -/
inductive FetchResult where
  | ok (json : List FirmwareRecord)
  | failed (f : FetchFailure)
deriving DecidableEq, Repr

/-- `String(e)` on the caught exception (line 87).  A thrown
`new Error("HTTP " + status)` stringifies as `"Error: HTTP " + status`. -/
def stringifyFailure : FetchFailure → String
  | .httpStatus code => "Error: HTTP " ++ toString code
  | .network msg => msg
  | .parse msg => msg

/-- The start of the remote-mode effect (line 77, `setLoading(true)`). -/
def startFetch (s : DashState) : DashState :=
  { s with loading := true }

/-- The `.then(setRecords/setError(null)) .catch(setError(String(e)))
.finally(setLoading(false))` chain at lines 83–88 as a state transition. -/
def applyFetchCompletion (s : DashState) : FetchResult → DashState
  | .ok json => { s with records := json, error := none, loading := false }
  | .failed f => { s with error := some (stringifyFailure f), loading := false }

/-! ## String primitives used by the view pipeline -/

/-- `String.prototype.toLowerCase`, modelled on the character list. -/
def lowerChars (s : List Char) : List Char := s.map Char.toLower

/-- `String.prototype.trim`: strip whitespace from both ends. -/
def trimChars (s : List Char) : List Char :=
  ((s.dropWhile Char.isWhitespace).reverse.dropWhile Char.isWhitespace).reverse

/-- `String.prototype.includes pat` on a character list: some (possibly
empty) substring of `s` equals `pat`. -/
def hasSubstr (pat : List Char) : List Char → Bool
  | [] => pat.isEmpty
  | c :: rest => pat.isPrefixOf (c :: rest) || hasSubstr pat rest

/-! ## The `filtered` view (lines 92–112) -/

/-- The four values of the `sortKey` state slot (line 73). -/
inductive SortKey where
  | product_name
  | product_code
  | version
  | released_at
deriving DecidableEq, Repr

/-- First filter stage (line 95):
`.filter((r) => (showBeta ? true : r.channel !== "beta"))`. -/
def betaFilter (showBeta : Bool) (records : List FirmwareRecord) : List FirmwareRecord :=
  records.filter fun r => if showBeta then true else r.channel != "beta"

/-- The predicate of the second filter stage (lines 96–101): the lowercased
product name, product code, or hardware revision contains the needle. -/
def matchesQuery (needle : List Char) (r : FirmwareRecord) : Bool :=
  hasSubstr needle (lowerChars r.product_name.data)
    || hasSubstr needle (lowerChars r.product_code.data)
    || hasSubstr needle (lowerChars r.hardware_rev.data)

/-- Second filter stage (lines 96–101). -/
def queryFilter (needle : List Char) (records : List FirmwareRecord) : List FirmwareRecord :=
  records.filter (matchesQuery needle)

/-- Both filter stages, with the needle computed from the raw query as at
line 93 (`q.trim().toLowerCase()`). -/
def filterStep (showBeta : Bool) (q : String) (records : List FirmwareRecord) :
    List FirmwareRecord :=
  queryFilter (lowerChars (trimChars q.data)) (betaFilter showBeta records)

/-- Case-insensitive code point of a character (models `sensitivity:
"base"`). -/
def charBase (c : Char) : Nat := c.toLower.toNat

/-- Numeric value of a run of decimal digit characters. -/
def natOfDigits (ds : List Char) : Nat :=
  ds.foldl (fun n c => 10 * n + (c.toNat - 48)) 0

/-- Tokenisation for numeric-aware collation: maximal digit runs become
numbers, any other character is its own token. -/
def numTokens : List Char → List (Nat ⊕ Char)
  | [] => []
  | c :: rest =>
    if h : c.isDigit then
      Sum.inl (natOfDigits ((c :: rest).takeWhile Char.isDigit))
        :: numTokens ((c :: rest).dropWhile Char.isDigit)
    else
      Sum.inr c :: numTokens rest
termination_by l => l.length
decreasing_by
  · rw [List.dropWhile_cons]
    simp only [h, if_true]
    have := (@List.dropWhile_sublist Char rest Char.isDigit).length_le
    simp only [List.length_cons]
    omega
  · simp

/-- Compare two collation tokens: numbers numerically (and before any
non-digit character), characters case-insensitively by code point. -/
def cmpTok : Nat ⊕ Char → Nat ⊕ Char → Ordering
  | .inl m, .inl n => compare m n
  | .inl _, .inr _ => .lt
  | .inr _, .inl _ => .gt
  | .inr a, .inr b => compare (charBase a) (charBase b)

/-- Lexicographic comparison of token lists. -/
def lexOrdTok : List (Nat ⊕ Char) → List (Nat ⊕ Char) → Ordering
  | [], [] => .eq
  | [], _ :: _ => .lt
  | _ :: _, [] => .gt
  | a :: as, b :: bs =>
    match cmpTok a b with
    | .eq => lexOrdTok as bs
    | o => o

/-- Model of `x.localeCompare(y, undefined, { numeric: true, sensitivity:
"base" })` (line 108). -/
def localeCompareNumericBase (a b : String) : Ordering :=
  lexOrdTok (numTokens a.data) (numTokens b.data)

/-- The sort comparator at lines 102–111, as the relation "`a` sorts at or
before `b`" (comparator value ≤ 0).  `localeCompare` with default options is
modelled by the code-point order on `String`. -/
def sortRel : SortKey → FirmwareRecord → FirmwareRecord → Prop
  | .released_at, a, b => b.released_at ≤ a.released_at
  | .version, a, b => localeCompareNumericBase b.version a.version ≠ Ordering.gt
  | .product_name, a, b => a.product_name ≤ b.product_name
  | .product_code, a, b => a.product_code ≤ b.product_code

instance sortRelDecidable (k : SortKey) : DecidableRel (sortRel k) := by
  cases k <;> (intro a b; simp only [sortRel]; infer_instance)

instance : IsTotal FirmwareRecord (sortRel .released_at) :=
  ⟨fun a b => Int.le_total b.released_at a.released_at⟩

instance : IsTrans FirmwareRecord (sortRel .released_at) :=
  ⟨fun _ _ _ h1 h2 => le_trans h2 h1⟩

instance : IsTotal FirmwareRecord (sortRel .product_name) :=
  ⟨fun a b => le_total a.product_name b.product_name⟩

instance : IsTrans FirmwareRecord (sortRel .product_name) :=
  ⟨fun _ _ _ h1 h2 => le_trans h1 h2⟩

instance : IsTotal FirmwareRecord (sortRel .product_code) :=
  ⟨fun a b => le_total a.product_code b.product_code⟩

instance : IsTrans FirmwareRecord (sortRel .product_code) :=
  ⟨fun _ _ _ h1 h2 => le_trans h1 h2⟩

/-- The whole `filtered` memo (lines 92–112): both filters, then the
comparator sort. -/
def filtered (records : List FirmwareRecord) (q : String) (showBeta : Bool)
    (sortKey : SortKey) : List FirmwareRecord :=
  (filterStep showBeta q records).insertionSort (sortRel sortKey)

/-! ## `lastUpdated` (lines 114–117) -/

/-- The parsed value of the reduce seed `"1970-01-01T00:00:00Z"`. -/
def fallbackTimestamp : Int := 0

/-- The `lastUpdated` memo (lines 114–117): reduce over the full, unfiltered
record list keeping the strictly larger parsed timestamp, seeded with the
epoch fallback. -/
def lastUpdated (records : List FirmwareRecord) : Int :=
  records.foldl (fun acc r => if r.released_at > acc then r.released_at else acc)
    fallbackTimestamp

/-! ## Release-date rendering (line 191)

`new Date(r.released_at).toISOString().replace(".000Z", "Z")`, modelled for
timestamps at or after the epoch (`toISOString` uses the expanded-year format
outside 0000–9999, which is outside the modelled range). -/

/-- The decimal digit character for `n % 10`. -/
def digitChar (n : Nat) : Char :=
  match n % 10 with
  | 0 => '0' | 1 => '1' | 2 => '2' | 3 => '3' | 4 => '4'
  | 5 => '5' | 6 => '6' | 7 => '7' | 8 => '8' | _ => '9'

/-- Two-digit zero-padded decimal rendering. -/
def pad2 (n : Nat) : List Char := [digitChar (n / 10), digitChar n]

/-- Three-digit zero-padded decimal rendering. -/
def pad3 (n : Nat) : List Char := [digitChar (n / 100), digitChar (n / 10), digitChar n]

/-- Four-digit zero-padded decimal rendering. -/
def pad4 (n : Nat) : List Char :=
  [digitChar (n / 1000), digitChar (n / 100), digitChar (n / 10), digitChar n]

/-- Gregorian `(year, month, day)` from days since the epoch
(Hinnant's civil-from-days, restricted to non-negative days). -/
def civilFromDays (days : Nat) : Nat × Nat × Nat :=
  let z := days + 719468
  let era := z / 146097
  let doe := z % 146097
  let yoe := (doe - doe / 1460 + doe / 36524 - doe / 146096) / 365
  let doy := doe - (365 * yoe + yoe / 4 - yoe / 100)
  let mp := (5 * doy + 2) / 153
  let d := doy - (153 * mp + 2) / 5 + 1
  let m := if mp < 10 then mp + 3 else mp - 9
  let y := yoe + era * 400 + (if m ≤ 2 then 1 else 0)
  (y, m, d)

/-- Everything of `toISOString` before the millisecond part:
`YYYY-MM-DDTHH:mm:ss`. -/
def isoBase (t : Nat) : List Char :=
  pad4 (civilFromDays (t / 86400000)).1 ++ '-' ::
    pad2 (civilFromDays (t / 86400000)).2.1 ++ '-' ::
    pad2 (civilFromDays (t / 86400000)).2.2 ++ 'T' ::
    pad2 (t % 86400000 / 3600000) ++ ':' ::
    pad2 (t % 86400000 % 3600000 / 60000) ++ ':' ::
    pad2 (t % 86400000 % 60000 / 1000)

/-- `Date.prototype.toISOString`: `YYYY-MM-DDTHH:mm:ss.sssZ`. -/
def toISOChars (t : Nat) : List Char :=
  isoBase t ++ '.' :: pad3 (t % 86400000 % 1000) ++ ['Z']

/-- `String.prototype.replace` with a string pattern: replace the first
occurrence of `pat` (here always non-empty) and leave the rest unchanged. -/
def replaceFirstL (pat repl : List Char) : List Char → List Char
  | [] => []
  | c :: rest =>
    if pat.isPrefixOf (c :: rest) then repl ++ (c :: rest).drop pat.length
    else c :: replaceFirstL pat repl rest

/-- The release-date cell at line 191:
`new Date(r.released_at).toISOString().replace(".000Z", "Z")`. -/
def renderReleaseDate (r : FirmwareRecord) : String :=
  ⟨replaceFirstL ".000Z".data "Z".data (toISOChars r.released_at.toNat)⟩

/-- The canonical UTC ISO form the spec describes for the release-date cell:
the `toISOString` rendering with the `.000` millisecond part dropped (a
literal `Z` suffix instead of `.000Z`); non-zero milliseconds are kept. -/
def isoCanonicalUTC (t : Nat) : String :=
  ⟨isoBase t ++
    (if t % 86400000 % 1000 = 0 then [] else '.' :: pad3 (t % 86400000 % 1000)) ++ ['Z']⟩

/-! ## Helper lemmas -/

/-- An empty pattern is contained in every haystack (JS `includes("")`). -/
theorem hasSubstr_nil (s : List Char) : hasSubstr [] s = true := by
  cases s <;> simp [hasSubstr, List.isPrefixOf]

/-- Characterisation of the `lastUpdated` reduce from any seed: the seed is a
lower bound, every record's timestamp is a lower bound, and the result is the
seed or one of the timestamps. -/
theorem lastUpdated_foldl (L : List FirmwareRecord) : ∀ a : Int,
    a ≤ L.foldl (fun acc r => if r.released_at > acc then r.released_at else acc) a ∧
    (∀ r ∈ L,
      r.released_at ≤
        L.foldl (fun acc r => if r.released_at > acc then r.released_at else acc) a) ∧
    (L.foldl (fun acc r => if r.released_at > acc then r.released_at else acc) a = a ∨
      ∃ r ∈ L,
        L.foldl (fun acc r => if r.released_at > acc then r.released_at else acc) a =
          r.released_at) := by
  induction L with
  | nil => intro a; simp
  | cons r L ih =>
    intro a
    simp only [List.foldl_cons]
    obtain ⟨h1, h2, h3⟩ := ih (if r.released_at > a then r.released_at else a)
    have hstep : a ≤ if r.released_at > a then r.released_at else a := by
      split <;> omega
    have hstepr : r.released_at ≤ if r.released_at > a then r.released_at else a := by
      split <;> omega
    refine ⟨le_trans hstep h1, ?_, ?_⟩
    · intro r' hr'
      rcases List.mem_cons.mp hr' with heq | hmem
      · subst heq; exact le_trans hstepr h1
      · exact h2 r' hmem
    · rcases h3 with heq | ⟨r', hr', heq⟩
      · by_cases hc : r.released_at > a
        · right
          exact ⟨r, List.mem_cons_self r L, by rw [heq]; simp [hc]⟩
        · left
          rw [heq]; simp [hc]
      · right
        exact ⟨r', List.mem_cons_of_mem r hr', heq⟩

/-! ## Claim theorems -/

/-- C2: in remote mode, a failed fetch (non-ok HTTP status, network failure,
or parse failure) leaves the in-memory record list unchanged and sets the
error to the stringified failure reason; an HTTP-status failure message
contains the status code (e.g. `"500"`); and the loading flag is cleared on
every completion, success or failure. -/
theorem fetch_failure_behavior (s : DashState) (f : FetchFailure) :
    (applyFetchCompletion s (.failed f)).records = s.records ∧
    (applyFetchCompletion s (.failed f)).error = some (stringifyFailure f) ∧
    (∀ res : FetchResult, (applyFetchCompletion s res).loading = false) ∧
    ∀ code : Nat, ∃ pre post : String,
      stringifyFailure (.httpStatus code) = pre ++ toString code ++ post := by
  refine ⟨rfl, rfl, ?_, ?_⟩
  · intro res; cases res <;> rfl
  · intro code
    refine ⟨"Error: HTTP ", "", ?_⟩
    simp [stringifyFailure]

/-- C3: with show-beta off the channel filter drops exactly the records whose
channel is `"beta"`; with show-beta on it keeps the whole list; and its
output is always a sublist (hence subset) of its input. -/
theorem betaFilter_spec (L : List FirmwareRecord) (sb : Bool) :
    (∀ r ∈ betaFilter false L, r.channel ≠ "beta") ∧
    betaFilter true L = L ∧
    (betaFilter sb L).Sublist L := by
  refine ⟨?_, ?_, ?_⟩
  · intro r hr
    have hpred := List.of_mem_filter hr
    simpa using hpred
  · simp [betaFilter]
  · exact List.filter_sublist L

/-- C7: a record whose channel is neither `"approved"` nor `"beta"` passes
the channel filter under both show-beta settings, and merely fails the
`channel === "approved"` styling check (line 173). -/
theorem unknown_channel_accepted (L : List FirmwareRecord) (sb : Bool)
    (r : FirmwareRecord) (h1 : r ∈ L) (h2 : r.channel ≠ "approved")
    (h3 : r.channel ≠ "beta") :
    r ∈ betaFilter sb L ∧ (r.channel == "approved") = false := by
  constructor
  · apply List.mem_filter.mpr
    refine ⟨h1, ?_⟩
    cases sb <;> simp [h3]
  · simpa using h2

/-- A record with an unknown channel value, used to instantiate
`unknown_channel_accepted`. -/
def experimentalRecord : FirmwareRecord :=
  { product_code := "PW-TST-0002", product_name := "Test Fixture",
    hardware_rev := "A0", channel := "experimental", version := "0.9.0",
    released_at := 1755000000000, notes := "" }

/-- Witness for C7 at a concrete record with channel `"experimental"`. -/
theorem unknown_channel_accepted_w :
    experimentalRecord ∈ betaFilter false [experimentalRecord] ∧
    (experimentalRecord.channel == "approved") = false :=
  unknown_channel_accepted [experimentalRecord] false experimentalRecord
    (by decide) (by decide) (by decide)

/-- C4: the filtering step (channel filter followed by text filter, for a
fixed query and show-beta flag) is idempotent. -/
theorem filterStep_idempotent (sb : Bool) (q : String) (L : List FirmwareRecord) :
    filterStep sb q (filterStep sb q L) = filterStep sb q L := by
  unfold filterStep queryFilter betaFilter
  simp only [List.filter_filter]
  apply List.filter_congr
  intro r _
  cases hb : (if sb then true else r.channel != "beta") <;>
    cases hq : matchesQuery (lowerChars (trimChars q.data)) r <;>
      simp [hb, hq]

/-- C5: sorting by release date yields a sequence whose parsed timestamps are
non-increasing (most recent first). -/
theorem filtered_released_at_desc (records : List FirmwareRecord) (q : String)
    (sb : Bool) :
    (filtered records q sb .released_at).Pairwise
      (fun a b => b.released_at ≤ a.released_at) := by
  unfold filtered
  exact List.sorted_insertionSort (sortRel .released_at) _

/-- C9: sorting by product name (resp. product code) yields a sequence that
is non-decreasing under the modelled string comparator on that field. -/
theorem filtered_name_code_asc (records : List FirmwareRecord) (q : String)
    (sb : Bool) :
    (filtered records q sb .product_name).Pairwise
      (fun a b => a.product_name ≤ b.product_name) ∧
    (filtered records q sb .product_code).Pairwise
      (fun a b => a.product_code ≤ b.product_code) := by
  constructor
  · unfold filtered
    exact List.sorted_insertionSort (sortRel .product_name) _
  · unfold filtered
    exact List.sorted_insertionSort (sortRel .product_code) _

/-- C10: for every input list, query, show-beta flag and sort key, the
derived view is a permutation of a sub-multiset of the input: no record is
fabricated, and no record occurs more often than in the input. -/
theorem filtered_subperm (records : List FirmwareRecord) (q : String) (sb : Bool)
    (k : SortKey) :
    (filtered records q sb k).Subperm records ∧
    (∀ r ∈ filtered records q sb k, r ∈ records) ∧
    ∀ r : FirmwareRecord, (filtered records q sb k).count r ≤ records.count r := by
  have hsub : (filterStep sb q records).Sublist records := by
    unfold filterStep queryFilter betaFilter
    exact (List.filter_sublist _).trans (List.filter_sublist _)
  have hperm : (filtered records q sb k).Perm (filterStep sb q records) :=
    List.perm_insertionSort _ _
  have hsp : (filtered records q sb k).Subperm records :=
    hperm.subperm.trans hsub.subperm
  exact ⟨hsp, fun r hr => hsp.subset hr, fun r => hsp.count_le r⟩

/-- C8: a query that trims to the empty string matches every record, so for
every sort key the derived view has exactly the membership of the
show-beta-filtered list, merely reordered. -/
theorem empty_query_filtered_perm (records : List FirmwareRecord) (q : String)
    (sb : Bool) (k : SortKey) (h : trimChars q.data = []) :
    (filtered records q sb k).Perm (betaFilter sb records) := by
  have hneedle : lowerChars (trimChars q.data) = [] := by
    rw [h]; rfl
  have hq : queryFilter [] (betaFilter sb records) = betaFilter sb records := by
    unfold queryFilter
    apply List.filter_eq_self.mpr
    intro r _
    simp [matchesQuery, hasSubstr_nil]
  unfold filtered filterStep
  rw [hneedle, hq]
  exact List.perm_insertionSort _ _

/-- Witness for C8: a whitespace-only query over the sample data, sorted by
release date, is a permutation of the beta-filtered sample data. -/
theorem empty_query_filtered_perm_w :
    (filtered INLINE_DATA "  " true .released_at).Perm (betaFilter true INLINE_DATA) :=
  empty_query_filtered_perm INLINE_DATA "  " true .released_at (by decide)

/-- C1 (amended): over an empty list `lastUpdated` is the fallback minimum
timestamp `"1970-01-01T00:00:00Z"` (parsed value `0`); over a non-empty list
it equals the maximum `released_at` across all (unfiltered) records provided
that maximum is at or after the fallback epoch — the reduce seeds its
accumulator with the fallback, so a list whose records all predate the epoch
yields the fallback instead of its maximum. -/
theorem lastUpdated_spec (L : List FirmwareRecord) (r : FirmwareRecord)
    (hmem : r ∈ L) (hmax : ∀ r' ∈ L, r'.released_at ≤ r.released_at)
    (hpos : fallbackTimestamp ≤ r.released_at) :
    lastUpdated [] = fallbackTimestamp ∧ lastUpdated L = r.released_at := by
  refine ⟨rfl, ?_⟩
  obtain ⟨h1, h2, h3⟩ := lastUpdated_foldl L fallbackTimestamp
  have hub := h2 r hmem
  unfold lastUpdated
  rcases h3 with heq | ⟨r', hr', heq⟩
  · rw [heq]
    rw [heq] at hub
    omega
  · rw [heq]
    rw [heq] at hub
    have := hmax r' hr'
    omega

/-- Witness for C1 (amended) at the sample data: the maximum `released_at`
belongs to the beta record released `2025-08-21T02:01:00Z`. -/
theorem lastUpdated_spec_w :
    lastUpdated [] = fallbackTimestamp ∧ lastUpdated INLINE_DATA = (1755741660000 : Int) :=
  lastUpdated_spec INLINE_DATA
    { product_code := "PW-SEN-AL7700", product_name := "Pacwave PIR Ceiling Sensor",
      hardware_rev := "A2", channel := "beta", version := "1.5.0-beta.2",
      released_at := 1755741660000, notes := "Adds anti-rollback check." }
    (by decide) (by decide) (by decide)

/-- A record released one second before the epoch
(`"1969-12-31T23:59:59Z"`, parsed timestamp `-1000`). -/
def preEpochRecord : FirmwareRecord :=
  { product_code := "PW-TST-0001", product_name := "Legacy Test Unit",
    hardware_rev := "A0", channel := "approved", version := "0.0.1",
    released_at := -1000, notes := "" }

/-- Counterexample to C1 as stated: on the non-empty list
`[preEpochRecord]` the maximum `released_at` across all records is `-1000`
(one second before the epoch), yet `lastUpdated` returns the fallback epoch
timestamp, not that maximum — the reduce only replaces its seed with a
strictly later timestamp. -/
theorem lastUpdated_pre_epoch_counterexample :
    (∀ r ∈ [preEpochRecord], r.released_at ≤ preEpochRecord.released_at) ∧
    preEpochRecord.released_at = -1000 ∧
    lastUpdated [preEpochRecord] = fallbackTimestamp ∧
    lastUpdated [preEpochRecord] ≠ preEpochRecord.released_at := by
  refine ⟨?_, rfl, rfl, ?_⟩ <;> decide

/-! ## Shape lemmas for the rendered release date -/

/-- Digit characters are never `'Z'`. -/
theorem digitChar_ne_Z (n : Nat) : digitChar n ≠ 'Z' := by
  unfold digitChar
  split <;> decide

/-- A digit character is `'0'` only for a zero digit. -/
theorem digitChar_eq_zero (n : Nat) (h : digitChar n = '0') : n % 10 = 0 := by
  unfold digitChar at h
  split at h <;> first | assumption | exact absurd h (by decide)

/-- No character of a two-digit rendering is `'Z'`. -/
theorem mem_pad2_ne_Z (n : Nat) (c : Char) (hc : c ∈ pad2 n) : c ≠ 'Z' := by
  simp only [pad2, List.mem_cons, List.not_mem_nil, or_false] at hc
  rcases hc with rfl | rfl <;> exact digitChar_ne_Z _

/-- No character of a three-digit rendering is `'Z'`. -/
theorem mem_pad3_ne_Z (n : Nat) (c : Char) (hc : c ∈ pad3 n) : c ≠ 'Z' := by
  simp only [pad3, List.mem_cons, List.not_mem_nil, or_false] at hc
  rcases hc with rfl | rfl | rfl <;> exact digitChar_ne_Z _

/-- No character of a four-digit rendering is `'Z'`. -/
theorem mem_pad4_ne_Z (n : Nat) (c : Char) (hc : c ∈ pad4 n) : c ≠ 'Z' := by
  simp only [pad4, List.mem_cons, List.not_mem_nil, or_false] at hc
  rcases hc with rfl | rfl | rfl | rfl <;> exact digitChar_ne_Z _

/-- The three-digit rendering is `"000"` only for zero. -/
theorem pad3_eq_zeros (m : Nat) (hm : m < 1000) (h : pad3 m = ['0', '0', '0']) :
    m = 0 := by
  simp only [pad3, List.cons.injEq, and_true] at h
  obtain ⟨h1, h2, h3⟩ := h
  have e1 := digitChar_eq_zero _ h1
  have e2 := digitChar_eq_zero _ h2
  have e3 := digitChar_eq_zero _ h3
  omega

/-- The date-time part `YYYY-MM-DDTHH:mm:ss` contains no `'Z'`. -/
theorem isoBase_ne_Z (t : Nat) : ∀ c ∈ isoBase t, c ≠ 'Z' := by
  unfold isoBase
  simp only [List.forall_mem_append, List.forall_mem_cons]
  exact ⟨⟨⟨⟨⟨fun c hc => mem_pad4_ne_Z _ _ hc, by decide,
    fun c hc => mem_pad2_ne_Z _ _ hc⟩, by decide,
    fun c hc => mem_pad2_ne_Z _ _ hc⟩, by decide,
    fun c hc => mem_pad2_ne_Z _ _ hc⟩, by decide,
    fun c hc => mem_pad2_ne_Z _ _ hc⟩, by decide,
    fun c hc => mem_pad2_ne_Z _ _ hc⟩

/-- `'Z'` does not occur in the date-time part. -/
theorem count_Z_isoBase (t : Nat) : List.count 'Z' (isoBase t) = 0 :=
  List.count_eq_zero.mpr (fun h => isoBase_ne_Z t 'Z' h rfl)

/-- `'Z'` does not occur in a three-digit rendering. -/
theorem count_Z_pad3 (n : Nat) : List.count 'Z' (pad3 n) = 0 :=
  List.count_eq_zero.mpr (fun h => mem_pad3_ne_Z n 'Z' h rfl)

/-- The pattern `".000Z"` cannot match strictly inside `u ++ ".000Z"` when
`u` is non-empty and `'Z'`-free: the match would need a `'Z'` before the
final one. -/
theorem dotZeroZ_not_prefix_mid (u : List Char) (hu : ∀ c ∈ u, c ≠ 'Z')
    (hne : u ≠ []) : ¬ (".000Z".data.isPrefixOf (u ++ ".000Z".data) = true) := by
  intro h
  rw [ List.isPrefixOf_iff_prefix] at h
  obtain ⟨t, ht⟩ := h
  have hlen := congrArg List.length ht
  simp only [List.length_append] at hlen
  have htne : t ≠ [] := by
    intro h0
    subst h0
    simp only [List.length_nil] at hlen
    exact hne (List.eq_nil_of_length_eq_zero (by omega))
  have hcnt := congrArg (List.count 'Z') ht
  simp only [List.count_append] at hcnt
  have hcu : List.count 'Z' u = 0 :=
    List.count_eq_zero.mpr (fun hm => hu 'Z' hm rfl)
  have hpatc : List.count 'Z' ".000Z".data = 1 := by decide
  rw [hpatc, hcu] at hcnt
  have hlast := congrArg List.getLast? ht
  rw [List.getLast?_append, List.getLast?_append] at hlast
  have hpl : ".000Z".data.getLast? = some 'Z' := by decide
  rw [hpl] at hlast
  cases hzt : t.getLast? with
  | none => exact htne (List.getLast?_eq_none_iff.mp hzt)
  | some z =>
    rw [hzt] at hlast
    have hz : z = 'Z' := by simpa using hlast
    subst hz
    have hmem : 'Z' ∈ t := List.mem_of_mem_getLast? (by rw [hzt]; rfl)
    have hc0 : List.count 'Z' t = 0 := by omega
    exact (List.count_eq_zero.mp hc0) hmem

/-- Replacing the first occurrence of `".000Z"` in `base ++ ".000Z"`, where
`base` is `'Z'`-free, replaces exactly the final five characters. -/
theorem replaceFirstL_append_end (repl : List Char) : ∀ base : List Char,
    (∀ c ∈ base, c ≠ 'Z') →
    replaceFirstL ".000Z".data repl (base ++ ".000Z".data) = base ++ repl := by
  intro base
  induction base with
  | nil =>
    intro _
    simp only [List.nil_append]
    simp only [replaceFirstL]
    rw [if_pos (by decide)]
    simp
  | cons c base ih =>
    intro hno
    have hu : ∀ x ∈ base, x ≠ 'Z' := fun x hx => hno x (List.mem_cons_of_mem c hx)
    have hcond := dotZeroZ_not_prefix_mid (c :: base) hno (by simp)
    rw [List.cons_append] at hcond
    simp only [List.cons_append]
    simp only [replaceFirstL]
    rw [if_neg hcond]
    rw [ih hu]

/-- If a pattern occurs nowhere in `s`, first-occurrence replacement leaves
`s` unchanged. -/
theorem replaceFirstL_eq_self (pat repl : List Char) : ∀ s : List Char,
    (¬ ∃ s1 s2, s = s1 ++ pat ++ s2) → replaceFirstL pat repl s = s := by
  intro s
  induction s with
  | nil => intro _; rfl
  | cons c rest ih =>
    intro hno
    have hcond : ¬ (pat.isPrefixOf (c :: rest) = true) := by
      intro hp
      rw [ List.isPrefixOf_iff_prefix] at hp
      obtain ⟨t, ht⟩ := hp
      exact hno ⟨[], t, by rw [← ht]; simp⟩
    simp only [replaceFirstL]
    rw [if_neg hcond]
    have hrest : ¬ ∃ s1 s2, rest = s1 ++ pat ++ s2 := by
      intro ⟨s1, s2, hs⟩
      exact hno ⟨c :: s1, s2, by rw [hs]; simp⟩
    rw [ih hrest]

/-- `toISOString` output contains exactly one `'Z'` (the final one). -/
theorem count_Z_toISOChars (t : Nat) : List.count 'Z' (toISOChars t) = 1 := by
  unfold toISOChars
  rw [show ('.' :: pad3 (t % 86400000 % 1000) : List Char) =
    ['.'] ++ pad3 (t % 86400000 % 1000) from rfl]
  simp [List.count_append, count_Z_isoBase, count_Z_pad3]

/-- A whole-second timestamp renders as the date-time part followed by
`".000Z"`. -/
theorem toISOChars_ms_zero (t : Nat) (hz : t % 86400000 % 1000 = 0) :
    toISOChars t = isoBase t ++ ".000Z".data := by
  unfold toISOChars
  rw [hz, List.append_assoc]
  rfl

/-- When the millisecond part is non-zero, `".000Z"` occurs nowhere in the
`toISOString` output. -/
theorem toISOChars_no_dotZeroZ (t : Nat) (hms : t % 86400000 % 1000 ≠ 0) :
    ¬ ∃ s1 s2, toISOChars t = s1 ++ ".000Z".data ++ s2 := by
  intro ⟨s1, s2, hs⟩
  have hcnt := congrArg (List.count 'Z') hs
  rw [count_Z_toISOChars] at hcnt
  simp only [List.count_append] at hcnt
  have hpatc : List.count 'Z' ".000Z".data = 1 := by decide
  rw [hpatc] at hcnt
  have hs1c : List.count 'Z' s1 = 0 := by omega
  have hs2c : List.count 'Z' s2 = 0 := by omega
  have hlast := congrArg List.getLast? hs
  rw [show toISOChars t =
    (isoBase t ++ '.' :: pad3 (t % 86400000 % 1000)) ++ ['Z'] from rfl] at hlast
  rw [List.getLast?_concat, List.getLast?_append, List.getLast?_append] at hlast
  have hpl : ".000Z".data.getLast? = some 'Z' := by decide
  rw [hpl] at hlast
  cases hzt : s2.getLast? with
  | some z =>
    rw [hzt] at hlast
    have hz : z = 'Z' := by
      simp only [Option.or_some] at hlast
      exact (Option.some.injEq _ _ ▸ hlast.symm)
    subst hz
    have hmem : 'Z' ∈ s2 := List.mem_of_mem_getLast? (by rw [hzt]; rfl)
    exact (List.count_eq_zero.mp hs2c) hmem
  | none =>
    have hs2 : s2 = [] := List.getLast?_eq_none_iff.mp hzt
    subst hs2
    rw [List.append_nil] at hs
    rw [show toISOChars t =
      (isoBase t ++ '.' :: pad3 (t % 86400000 % 1000)) ++ ['Z'] from rfl,
      show (".000Z".data : List Char) = ['.', '0', '0', '0'] ++ ['Z'] from rfl,
      ← List.append_assoc] at hs
    obtain ⟨h1, _⟩ := List.append_inj' hs rfl
    rw [show (['.', '0', '0', '0'] : List Char) = ['.'] ++ ['0', '0', '0'] from rfl,
      ← List.append_assoc,
      show ('.' :: pad3 (t % 86400000 % 1000) : List Char) =
        ['.'] ++ pad3 (t % 86400000 % 1000) from rfl,
      ← List.append_assoc] at h1
    obtain ⟨_, h2⟩ := List.append_inj' h1 (by simp [pad3])
    have hm : t % 86400000 % 1000 < 1000 := Nat.mod_lt _ (by norm_num)
    exact hms (pad3_eq_zeros _ hm h2)

/-- The date-time part ends with a colon followed by the two seconds
digits. -/
theorem isoBase_decomp (t : Nat) : ∃ A c1 c2, isoBase t = A ++ [':', c1, c2] := by
  refine ⟨pad4 (civilFromDays (t / 86400000)).1 ++ '-' ::
      pad2 (civilFromDays (t / 86400000)).2.1 ++ '-' ::
      pad2 (civilFromDays (t / 86400000)).2.2 ++ 'T' ::
      pad2 (t % 86400000 / 3600000) ++ ':' ::
      pad2 (t % 86400000 % 3600000 / 60000),
    digitChar (t % 86400000 % 60000 / 1000 / 10),
    digitChar (t % 86400000 % 60000 / 1000), ?_⟩
  unfold isoBase pad2
  simp [List.append_assoc]

/-- The rendered character list never ends in `".000Z"`. -/
theorem not_ends_dotZeroZ_of_base_Z (t : Nat) :
    ¬ ∃ s, isoBase t ++ ['Z'] = s ++ ".000Z".data := by
  intro ⟨s, hs⟩
  rw [show (".000Z".data : List Char) = ['.', '0', '0', '0'] ++ ['Z'] from rfl,
    ← List.append_assoc] at hs
  obtain ⟨h1, _⟩ := List.append_inj' hs rfl
  obtain ⟨A, c1, c2, hA⟩ := isoBase_decomp t
  rw [hA,
    show (['.', '0', '0', '0'] : List Char) = ['.'] ++ ['0', '0', '0'] from rfl,
    ← List.append_assoc] at h1
  obtain ⟨_, h2⟩ := List.append_inj' h1 rfl
  simp only [List.cons.injEq] at h2
  exact absurd h2.1 (by decide)

/-- C6: the rendered release-date cell equals the canonical UTC ISO form of
the record's `released_at`: the `toISOString` output with a `".000Z"` suffix
replaced by a bare `"Z"`.  The rendering always ends with `'Z'` and never
ends with `".000Z"`. -/
theorem rendered_release_date_canonical (r : FirmwareRecord)
    (h : 0 ≤ r.released_at) :
    renderReleaseDate r = isoCanonicalUTC r.released_at.toNat ∧
    (∃ s, (renderReleaseDate r).data = s ++ ['Z']) ∧
    ¬ ∃ s, (renderReleaseDate r).data = s ++ ".000Z".data := by
  by_cases hm : r.released_at.toNat % 86400000 % 1000 = 0
  · have hlist : replaceFirstL ".000Z".data "Z".data (toISOChars r.released_at.toNat) =
        isoBase r.released_at.toNat ++ ['Z'] := by
      rw [toISOChars_ms_zero _ hm]
      exact replaceFirstL_append_end _ _ (isoBase_ne_Z _)
    have hdata : (renderReleaseDate r).data = isoBase r.released_at.toNat ++ ['Z'] := by
      unfold renderReleaseDate
      exact hlist
    refine ⟨?_, ⟨isoBase r.released_at.toNat, hdata⟩, ?_⟩
    · unfold renderReleaseDate isoCanonicalUTC
      rw [hlist, if_pos hm, List.append_nil]
    · rw [hdata]
      exact not_ends_dotZeroZ_of_base_Z _
  · have hlist : replaceFirstL ".000Z".data "Z".data (toISOChars r.released_at.toNat) =
        toISOChars r.released_at.toNat :=
      replaceFirstL_eq_self _ _ _ (toISOChars_no_dotZeroZ _ hm)
    have hdata : (renderReleaseDate r).data = toISOChars r.released_at.toNat := by
      unfold renderReleaseDate
      exact hlist
    refine ⟨?_, ?_, ?_⟩
    · unfold renderReleaseDate isoCanonicalUTC
      rw [hlist, if_neg hm]
      rfl
    · refine ⟨isoBase r.released_at.toNat ++
        '.' :: pad3 (r.released_at.toNat % 86400000 % 1000), ?_⟩
      rw [hdata]
      rfl
    · intro ⟨s, hs⟩
      rw [hdata] at hs
      exact toISOChars_no_dotZeroZ _ hm ⟨s, [], by rw [hs]; simp⟩

/-- The first sample record (`2025-08-20T09:15:00Z`), used to instantiate
the release-date rendering theorem. -/
def sampleApprovedRecord : FirmwareRecord :=
  { product_code := "PW-SEN-AL7700", product_name := "Pacwave PIR Ceiling Sensor",
    hardware_rev := "A2", channel := "approved", version := "1.4.2",
    released_at := 1755681300000, notes := "Improved UART framing; fix delayed IRS." }

/-- Witness for C6 at the first sample record. -/
theorem rendered_release_date_canonical_w :
    0 ≤ sampleApprovedRecord.released_at ∧
    (renderReleaseDate sampleApprovedRecord =
        isoCanonicalUTC sampleApprovedRecord.released_at.toNat ∧
      (∃ s, (renderReleaseDate sampleApprovedRecord).data = s ++ ['Z']) ∧
      ¬ ∃ s, (renderReleaseDate sampleApprovedRecord).data = s ++ ".000Z".data) :=
  ⟨by decide, rendered_release_date_canonical sampleApprovedRecord (by decide)⟩
